import Mathlib

/-!
# cgroupfs-container-runtime: the command classifier and the hook injector

A shallow embedding of `cmd/cgroupfs-container-runtime/cfcr.go`.

Modelling conventions.

* A Go `string` is a Lean `String`, a Go slice is a `List` (a nil slice and an
  empty slice are both `[]`; the code only takes `len`, ranges and appends, which
  do not tell them apart).
* A Go `error` is represented by its message: `none` is `nil`, `some msg` is an
  error whose `Error()` text is `msg`.  `fmt.Errorf("ctx: %v", err)` is then
  `some ("ctx: " ++ msg)`.
* A method that mutates through a pointer and returns an error becomes a function
  returning the error together with the value after the call.
* Logging is a diagnostic side effect and is not modelled.
* `isBundleFlag` and `hookDefaultFilePath` are package-level names declared in
  another file of the package; they are parameters of the model.
* `strings.Contains` compares bytes; on character sequences it gives the same answer
  for the ASCII hook name matched here against valid UTF-8 paths.
* The delegate normally replaces the process and does not return; the model covers
  the executions in which its `Exec` returns.
-/

namespace Cfcr

/-- Message of a Go `error`. -/
abbrev Err := String

/-! ## Command classifier -/

/-- The `for _, a := range args` loop of `modificationRequired`, with the loop
variable `previousWasBundle` as an explicit argument. -/
def modificationRequiredLoop (isBundleFlag : String → Bool) : Bool → List String → Bool
  | _, [] => false
  | previousWasBundle, a :: rest =>
    if !previousWasBundle && isBundleFlag a then
      modificationRequiredLoop isBundleFlag true rest
    else if !previousWasBundle && a == "create" then
      true
    else
      modificationRequiredLoop isBundleFlag false rest

/-- The method `modificationRequired`: `previousWasBundle` starts as `false`. -/
def modificationRequired (isBundleFlag : String → Bool) (args : List String) : Bool :=
  modificationRequiredLoop isBundleFlag false args

/-- Modelled from the spec: the helper `isBundleFlag` is declared in another file of
the package; the spec describes a bundle-path flag as "a flag such as
`--bundle`/`-b`".  Used only to instantiate the parameter at concrete inputs. -/
def isBundleFlagSpec (arg : String) : Bool :=
  arg == "--bundle" || arg == "-b"

/-! ## Runtime specification (the part of `specs.Spec` the shim touches) -/

/-- The type `specs.Hook` of the OCI runtime-spec library. -/
structure Hook where
  Path : String
  Args : List String
  Env : List String
  Timeout : Option Int
  deriving DecidableEq, Repr

/-- The type `specs.Hooks` of the OCI runtime-spec library: one list per lifecycle
stage.  The shim reads and writes `Prestart` only. -/
structure Hooks where
  Prestart : List Hook
  CreateRuntime : List Hook
  CreateContainer : List Hook
  StartContainer : List Hook
  Poststart : List Hook
  Poststop : List Hook
  deriving DecidableEq, Repr

/-- The type `specs.Spec`.  `Hooks` is a pointer in Go (`nil` is `none`); every other
field of the document is gathered, uninterpreted, in `Rest`. -/
structure Spec (β : Type) where
  Hooks : Option Hooks
  Rest : β
  deriving DecidableEq, Repr

/-- The Go composite literal `specs.Hooks{}`: every list is nil. -/
def Hooks.zero : Hooks :=
  { Prestart := [], CreateRuntime := [], CreateContainer := [], StartContainer := [],
    Poststart := [], Poststop := [] }

/-- The Prestart sequence of a specification; an absent Hooks section has none. -/
def Spec.prestart {β : Type} (spec : Spec β) : List Hook :=
  match spec.Hooks with
  | none => []
  | some hooks => hooks.Prestart

/-! ## Hook injector -/

/-- The Go function `strings.Contains` on character sequences: `substr` occurs in `s`
at some position. -/
def containsChars : List Char → List Char → Bool
  | [], substr => substr.isEmpty
  | c :: cs, substr => substr.isPrefixOf (c :: cs) || containsChars cs substr

/-- The Go function `strings.Contains`. -/
def stringsContains (s substr : String) : Bool :=
  containsChars s.data substr.data

/-- The name looked up on the search path and matched against existing hook paths. -/
def hookName : String := "cgroupfs-container-runtime-hook"

/-- What `addCgroupfsHook` reads from outside the program: the search-path lookup
`exec.LookPath`, the file-system query `os.Stat` (only its error is used) and the
package constant `hookDefaultFilePath`. -/
structure HookEnv where
  LookPath : String → Except Err String
  Stat : String → Option Err
  hookDefaultFilePath : String

/-- The body of the `for _, hook := range spec.Hooks.Prestart` loop of
`addCgroupfsHook`: `true` when the loop reaches its `return nil`, that is when some
entry has a `Path` containing the hook name. -/
def hasCgroupfsHook : List Hook → Bool
  | [] => false
  | hook :: rest =>
    if !stringsContains hook.Path hookName then hasCgroupfsHook rest
    else true

/-- The entry appended by `addCgroupfsHook`: `Path: path`,
`Args: append([]string{path}, "prestart")`, other fields zero. -/
def newHook (path : String) : Hook :=
  { Path := path, Args := [path] ++ ["prestart"], Env := [], Timeout := none }

/-- The part of `addCgroupfsHook` after the hook path is resolved (from
`args := []string{path}` on). -/
def injectHook {β : Type} (path : String) (spec : Spec β) : Option Err × Spec β :=
  match spec.Hooks with
  | none =>
    (none, { spec with Hooks := some { Hooks.zero with
                                        Prestart := Hooks.zero.Prestart ++ [newHook path] } })
  | some hooks =>
    if hooks.Prestart.length != 0 && hasCgroupfsHook hooks.Prestart then
      (none, spec)
    else
      (none, { spec with Hooks := some { hooks with
                                          Prestart := hooks.Prestart ++ [newHook path] } })

/-- The method `addCgroupfsHook`: the error it returns and the specification after
the call. -/
def addCgroupfsHook {β : Type} (env : HookEnv) (spec : Spec β) : Option Err × Spec β :=
  match env.LookPath hookName with
  | .ok path => injectHook path spec
  | .error _ =>
    match env.Stat env.hookDefaultFilePath with
    | some err => (some err, spec)
    | none => injectHook env.hookDefaultFilePath spec

/-- Repeated injection: `n` calls of `addCgroupfsHook` in sequence on the same
specification, stopping at the first call that returns an error. -/
def addCgroupfsHookTimes {β : Type} (env : HookEnv) : Nat → Spec β → Option Err × Spec β
  | 0, spec => (none, spec)
  | n + 1, spec =>
    match addCgroupfsHook env spec with
    | (some err, spec1) => (some err, spec1)
    | (none, spec1) => addCgroupfsHookTimes env n spec1

/-- The hook path is resolved to `p`: either the search-path lookup returns `p`, or
the lookup fails, the stat of the fallback path succeeds and `p` is the fallback. -/
def ResolvesTo (env : HookEnv) (p : String) : Prop :=
  env.LookPath hookName = .ok p ∨
    ((∃ e, env.LookPath hookName = .error e) ∧
      env.Stat env.hookDefaultFilePath = none ∧ p = env.hookDefaultFilePath)

/-- A hook entry identifies the companion hook program: its `Path` contains the hook
name. -/
def isCgroupfsHook (hook : Hook) : Bool :=
  stringsContains hook.Path hookName

/-! ## Runtime shim -/

/-- A call made by the shim on one of its collaborators: the three methods of the
spec accessor (`Modify` with the mutator it was given) and the delegate runtime. -/
inductive Call (β : Type) where
  | Load : Call β
  | Modify : (Spec β → Option Err × Spec β) → Call β
  | Flush : Call β
  | RuntimeExec : List String → Call β

/-- The interface `oci.Spec` as the shim uses it.  The collaborator is external: each
method is an arbitrary function of the state `ω` of the outside world, returning its
error and the state after the call. -/
structure OciSpec (ω β : Type) where
  Load : ω → Option Err × ω
  Modify : (Spec β → Option Err × Spec β) → ω → Option Err × ω
  Flush : ω → Option Err × ω

/-- The interface `oci.Runtime` of the delegate: `Exec` is an arbitrary function of
the arguments and the state of the outside world. -/
structure Runtime (ω : Type) where
  Exec : List String → ω → Option Err × ω

/-- The struct `cgroupfsContainerRuntime` (without its logger), with the package-level
names the methods use: `isBundleFlag` and the environment of `addCgroupfsHook`. -/
structure cgroupfsContainerRuntime (ω β : Type) where
  runtime : Runtime ω
  ociSpec : OciSpec ω β
  isBundleFlag : String → Bool
  hookEnv : HookEnv

/-- State threaded through the shim: the outside world and the collaborator calls
made so far, oldest first. -/
structure World (ω β : Type) where
  state : ω
  calls : List (Call β)

/-- The method `modifyOCISpec`. -/
def modifyOCISpec {ω β : Type} (r : cgroupfsContainerRuntime ω β) (w : World ω β) :
    Option Err × World ω β :=
  match r.ociSpec.Load w.state with
  | (some err, s1) =>
    (some ("error loading OCI specification for modification: " ++ err),
      { state := s1, calls := w.calls ++ [Call.Load] })
  | (none, s1) =>
    match r.ociSpec.Modify (addCgroupfsHook r.hookEnv) s1 with
    | (some err, s2) =>
      (some ("error injecting Cgroufs Container Runtime hook: " ++ err),
        { state := s2,
          calls := w.calls ++ [Call.Load, Call.Modify (addCgroupfsHook r.hookEnv)] })
    | (none, s2) =>
      match r.ociSpec.Flush s2 with
      | (some err, s3) =>
        (some ("error writing modified OCI specification: " ++ err),
          { state := s3,
            calls := w.calls ++
              [Call.Load, Call.Modify (addCgroupfsHook r.hookEnv), Call.Flush] })
      | (none, s3) =>
        (none,
          { state := s3,
            calls := w.calls ++
              [Call.Load, Call.Modify (addCgroupfsHook r.hookEnv), Call.Flush] })

/-- The call `r.runtime.Exec(args)` at the end of `Exec`, recorded in the call log. -/
def forward {ω β : Type} (r : cgroupfsContainerRuntime ω β) (args : List String)
    (w : World ω β) : Option Err × World ω β :=
  ((r.runtime.Exec args w.state).1,
    { state := (r.runtime.Exec args w.state).2,
      calls := w.calls ++ [Call.RuntimeExec args] })

/-- The method `Exec`. -/
def Exec {ω β : Type} (r : cgroupfsContainerRuntime ω β) (args : List String)
    (w : World ω β) : Option Err × World ω β :=
  if modificationRequired r.isBundleFlag args then
    match modifyOCISpec r w with
    | (some err, w1) => (some ("error modifying OCI spec: " ++ err), w1)
    | (none, w1) => forward r args w1
  else
    forward r args w

/-! ## Notions used to state the properties -/

/-- Length of the maximal run of consecutive bundle-flag tokens that ends immediately
before position `i` of `args`. -/
def bundleRunBefore (isBundleFlag : String → Bool) (args : List String) (i : Nat) : Nat :=
  ((args.take i).reverse.takeWhile isBundleFlag).length

/-- Every occurrence of the token `create` comes immediately after a token that is a
bundle flag. -/
def CreateOnlyAfterBundleFlag (isBundleFlag : String → Bool) (args : List String) : Prop :=
  ∀ i, args[i]? = some "create" →
    0 < i ∧ ∃ t, args[i - 1]? = some t ∧ isBundleFlag t = true

/-- The four-rule scanner of the specification, as the specification words it, with
the state "the previous token was a bundle flag": (1) if the state is set, consume the
token and clear the state; (2) otherwise a bundle flag sets the state; (3) otherwise
`create` gives true; (4) otherwise clear the state; false when the tokens run out. -/
def specScan (isBundleFlag : String → Bool) : Bool → List String → Bool
  | _, [] => false
  | previousWasBundle, a :: rest =>
    if previousWasBundle then specScan isBundleFlag false rest
    else if isBundleFlag a then specScan isBundleFlag true rest
    else if a == "create" then true
    else specScan isBundleFlag false rest

/-- The contract `RequiresModification` of the specification: the four-rule scanner
started from the state "previous was not a bundle flag". -/
def RequiresModification (isBundleFlag : String → Bool) (args : List String) : Bool :=
  specScan isBundleFlag false args

/-- The call is a call of the delegate runtime. -/
def Call.isRuntimeExec {β : Type} : Call β → Bool
  | Call.RuntimeExec _ => true
  | _ => false

/-- The collaborator calls made by `Exec args` started in the world `w`: the call log
after it without the calls that were logged before. -/
def callsMade {ω β : Type} (r : cgroupfsContainerRuntime ω β) (args : List String)
    (w : World ω β) : List (Call β) :=
  (Exec r args w).2.calls.drop w.calls.length

/-- What `Load` returns in the world `w`. -/
def loadResult {ω β : Type} (r : cgroupfsContainerRuntime ω β) (w : World ω β) :
    Option Err × ω :=
  r.ociSpec.Load w.state

/-- What `Modify`, given `addCgroupfsHook`, returns in the world left by `Load`. -/
def modifyResult {ω β : Type} (r : cgroupfsContainerRuntime ω β) (w : World ω β) :
    Option Err × ω :=
  r.ociSpec.Modify (addCgroupfsHook r.hookEnv) (loadResult r w).2

/-- What `Flush` returns in the world left by `Load` and `Modify`. -/
def flushResult {ω β : Type} (r : cgroupfsContainerRuntime ω β) (w : World ω β) :
    Option Err × ω :=
  r.ociSpec.Flush (modifyResult r w).2

/-- All three of `Load`, `Modify` and `Flush`, run in this order from the world `w`,
succeed. -/
def SpecStepsSucceed {ω β : Type} (r : cgroupfsContainerRuntime ω β) (w : World ω β) :
    Prop :=
  (loadResult r w).1 = none ∧ (modifyResult r w).1 = none ∧ (flushResult r w).1 = none

/-! ## Concrete inputs -/

/-- An environment in which the search-path lookup finds the hook program. -/
def envOnPath : HookEnv :=
  { LookPath := fun file => .ok ("/usr/bin/" ++ file)
    Stat := fun _ => some "stat: no such file or directory"
    hookDefaultFilePath := "/usr/local/bin/cgroupfs-container-runtime-hook" }

/-- An environment in which the lookup fails and the fallback path exists. -/
def envFallback : HookEnv :=
  { LookPath := fun _ => .error "executable file not found in $PATH"
    Stat := fun _ => none
    hookDefaultFilePath := "/usr/local/bin/cgroupfs-container-runtime-hook" }

/-- An entry that already names the hook program, with arguments of its own. -/
def presentHook : Hook :=
  { Path := "/opt/cgroupfs-container-runtime-hook", Args := ["hook", "-v"], Env := [],
    Timeout := none }

/-- An unrelated prestart entry. -/
def otherHook : Hook :=
  { Path := "/usr/bin/other-hook", Args := ["other-hook"], Env := ["A=1"],
    Timeout := some 5 }

/-- A shim over a world that is a counter: `Load` adds 100, `Modify` adds 10 and runs
the mutator on an empty specification, `Flush` adds 1000, and the delegate adds 1 and
fails on every command except `create`. -/
def shimExample : cgroupfsContainerRuntime Nat Unit :=
  { runtime :=
      { Exec := fun args s =>
          (if args.head? = some "create" then none else some "exit status 1", s + 1) }
    ociSpec :=
      { Load := fun s => (none, s + 100)
        Modify := fun mutator s => ((mutator { Hooks := none, Rest := () }).1, s + 10)
        Flush := fun s => (none, s + 1000) }
    isBundleFlag := isBundleFlagSpec
    hookEnv := envOnPath }

/-- An environment in which the lookup fails and the fallback path does not exist. -/
def envMissing : HookEnv :=
  { LookPath := fun _ => .error "executable file not found in $PATH"
    Stat := fun _ => some "stat: no such file or directory"
    hookDefaultFilePath := "/usr/local/bin/cgroupfs-container-runtime-hook" }

/-- The shim `shimExample` with a specification that cannot be loaded. -/
def shimLoadFails : cgroupfsContainerRuntime Nat Unit :=
  { shimExample with
    ociSpec :=
      { shimExample.ociSpec with
        Load := fun s => (some "open config.json: no such file or directory", s + 100) } }

/-- The shim `shimExample` with a specification that cannot be written back. -/
def shimFlushFails : cgroupfsContainerRuntime Nat Unit :=
  { shimExample with
    ociSpec :=
      { shimExample.ociSpec with
        Flush := fun s => (some "open config.json: permission denied", s + 1000) } }

/-- The shim `shimExample` on a machine without the hook program: `Modify` applies the
mutator to the loaded specification and returns its error. -/
def shimNoHook : cgroupfsContainerRuntime Nat Unit :=
  { shimExample with hookEnv := envMissing }

/-! ## Properties of the command classifier -/

/-- Length of the run of bundle flags at the head of a list, one token longer. -/
theorem run_cons (isBundleFlag : String → Bool) (a : String) (rev : List String) :
    ((a :: rev).takeWhile isBundleFlag).length =
      if isBundleFlag a then (rev.takeWhile isBundleFlag).length + 1 else 0 := by
  cases h : isBundleFlag a <;> simp [List.takeWhile_cons, h]

/-- The loop variable after one more token: it is set exactly when the run of bundle
flags ending at that token has odd length. -/
theorem loop_state_step (isBundleFlag : String → Bool) (prev : Bool) (a : String)
    (rev : List String)
    (hprev : prev = decide ((rev.takeWhile isBundleFlag).length % 2 = 1)) :
    (!prev && isBundleFlag a) =
      decide (((a :: rev).takeWhile isBundleFlag).length % 2 = 1) := by
  rw [run_cons]
  cases hb : isBundleFlag a
  · simp
  · subst hprev
    by_cases h : (rev.takeWhile isBundleFlag).length % 2 = 1
    · have : ((rev.takeWhile isBundleFlag).length + 1) % 2 ≠ 1 := by omega
      simp [h, this]
    · have : ((rev.takeWhile isBundleFlag).length + 1) % 2 = 1 := by omega
      simp [h, this]

/-- When the loop returns true it stopped at a `create` token in front of which the
run of bundle flags (continued into the tokens `rev` already scanned, newest first)
has even length. -/
theorem loop_true_even (isBundleFlag : String → Bool) :
    ∀ (args rev : List String) (prev : Bool),
      prev = decide ((rev.takeWhile isBundleFlag).length % 2 = 1) →
      modificationRequiredLoop isBundleFlag prev args = true →
      ∃ i, args[i]? = some "create" ∧
        ((((args.take i).reverse ++ rev).takeWhile isBundleFlag).length) % 2 = 0 := by
  intro args
  induction args with
  | nil => intro rev prev _ h; simp [modificationRequiredLoop] at h
  | cons a rest ih =>
    intro rev prev hprev h
    have hstep := loop_state_step isBundleFlag prev a rev hprev
    unfold modificationRequiredLoop at h
    by_cases h1 : (!prev && isBundleFlag a) = true
    · rw [if_pos h1] at h
      obtain ⟨i, hi, hev⟩ := ih (a :: rev) true (by rw [← hstep, h1]) h
      exact ⟨i + 1, by simpa using hi, by simpa using hev⟩
    · rw [if_neg h1] at h
      by_cases h2 : (!prev && a == "create") = true
      · refine ⟨0, ?_, ?_⟩
        · have : a = "create" := by
            simp only [Bool.and_eq_true, beq_iff_eq] at h2
            exact h2.2
          simp [this]
        · have hp : prev = false := by
            cases prev <;> simp_all
          rw [hp] at hprev
          have := of_decide_eq_false hprev.symm
          simp only [List.take_zero, List.reverse_nil, List.nil_append]
          omega
      · rw [if_neg h2] at h
        have h1f : (!prev && isBundleFlag a) = false := by simpa using h1
        obtain ⟨i, hi, hev⟩ := ih (a :: rev) false (by rw [← hstep, h1f]) h
        exact ⟨i + 1, by simpa using hi, by simpa using hev⟩

/-- Conversely, a `create` token in front of which the run of bundle flags has even
length makes the loop return true, provided `create` is not itself a bundle flag. -/
theorem loop_even_true (isBundleFlag : String → Bool)
    (hcreate : isBundleFlag "create" = false) :
    ∀ (args rev : List String) (prev : Bool) (i : Nat),
      prev = decide ((rev.takeWhile isBundleFlag).length % 2 = 1) →
      args[i]? = some "create" →
      ((((args.take i).reverse ++ rev).takeWhile isBundleFlag).length) % 2 = 0 →
      modificationRequiredLoop isBundleFlag prev args = true := by
  intro args
  induction args with
  | nil => intro rev prev i _ h; simp at h
  | cons a rest ih =>
    intro rev prev i hprev hi hev
    have hstep := loop_state_step isBundleFlag prev a rev hprev
    unfold modificationRequiredLoop
    cases i with
    | zero =>
      have ha : a = "create" := by simpa using hi
      subst ha
      have hp : prev = false := by
        rw [hprev]
        simp only [List.take_zero, List.reverse_nil, List.nil_append] at hev
        simp [hev]
      simp [hp, hcreate]
    | succ j =>
      have hj : rest[j]? = some "create" := by simpa using hi
      have hev2 : ((((rest.take j).reverse ++ (a :: rev)).takeWhile isBundleFlag).length) % 2
          = 0 := by simpa using hev
      by_cases h1 : (!prev && isBundleFlag a) = true
      · rw [if_pos h1]
        exact ih (a :: rev) true j (by rw [← hstep, h1]) hj hev2
      · rw [if_neg h1]
        by_cases h2 : (!prev && a == "create") = true
        · rw [if_pos h2]
        · rw [if_neg h2]
          have h1f : (!prev && isBundleFlag a) = false := by simpa using h1
          exact ih (a :: rev) false j (by rw [← hstep, h1f]) hj hev2

/-- Without a `create` token the loop returns false from either state. -/
theorem loop_no_create (isBundleFlag : String → Bool) :
    ∀ (args : List String) (prev : Bool), "create" ∉ args →
      modificationRequiredLoop isBundleFlag prev args = false := by
  intro args
  induction args with
  | nil => intro prev _; rfl
  | cons a rest ih =>
    intro prev hmem
    have hne : a ≠ "create" := fun h => hmem (by simp [h])
    have hrest : "create" ∉ rest := fun h => hmem (List.mem_cons_of_mem _ h)
    unfold modificationRequiredLoop
    simp [hne, ih _ hrest]

/-- C1: if `args[i]` is the token `create` and either `i = 0` or `args[i-1]` is not a
bundle flag, then `modificationRequired args` is true (`isBundleFlag` being false on
`create`). -/
theorem modificationRequired_free_create (isBundleFlag : String → Bool)
    (hcreate : isBundleFlag "create" = false) (args : List String) (i : Nat)
    (hi : args[i]? = some "create")
    (hfree : i = 0 ∨ ∃ t, args[i - 1]? = some t ∧ isBundleFlag t = false) :
    modificationRequired isBundleFlag args = true := by
  refine loop_even_true isBundleFlag hcreate args [] false i (by simp) hi ?_
  cases i with
  | zero => simp
  | succ j =>
    rcases hfree with h0 | ⟨t, ht, hb⟩
    · omega
    · have ht2 : args[j]? = some t := by simpa using ht
      simp [List.take_succ, ht2, List.takeWhile_cons, hb]

/-- C1, at Example 1 of the specification: the first token is the subcommand. -/
theorem modificationRequired_free_create_witness :
    modificationRequired isBundleFlagSpec
      ["create", "--bundle", "/foo/create", "container1"] = true :=
  modificationRequired_free_create isBundleFlagSpec (by decide)
    ["create", "--bundle", "/foo/create", "container1"] 0 (by rfl) (Or.inl rfl)

/-- C2 as stated fails: in `--bundle --bundle create` the only `create` comes
immediately after a bundle flag, yet the classifier returns true, because the second
`--bundle` is consumed as the value of the first. -/
theorem create_after_bundle_flag_counterexample :
    isBundleFlagSpec "create" = false ∧
      CreateOnlyAfterBundleFlag isBundleFlagSpec ["--bundle", "--bundle", "create"] ∧
      modificationRequired isBundleFlagSpec ["--bundle", "--bundle", "create"] = true := by
  refine ⟨by decide, ?_, by decide⟩
  intro i hi
  match i, hi with
  | 0, hi => simp at hi
  | 1, hi => simp at hi
  | 2, _ => exact ⟨by decide, "--bundle", by rfl, by decide⟩
  | n + 3, hi => simp at hi

/-- C2, amended: if every occurrence of `create` has in front of it a maximal run of
consecutive bundle flags of odd length, then `modificationRequired` returns false. -/
theorem modificationRequired_create_after_odd_run (isBundleFlag : String → Bool)
    (args : List String)
    (h : ∀ i, args[i]? = some "create" → bundleRunBefore isBundleFlag args i % 2 = 1) :
    modificationRequired isBundleFlag args = false := by
  cases hm : modificationRequired isBundleFlag args with
  | false => rfl
  | true =>
    obtain ⟨i, hi, hev⟩ := loop_true_even isBundleFlag args [] false (by simp) hm
    have hodd := h i hi
    simp only [bundleRunBefore] at hodd
    simp only [List.append_nil] at hev
    omega

/-- C2, amended, at `--bundle create container1` and at a run of three flags. -/
theorem modificationRequired_create_after_odd_run_witness :
    modificationRequired isBundleFlagSpec ["--bundle", "create", "container1"] = false ∧
      modificationRequired isBundleFlagSpec ["-b", "--bundle", "-b", "create"] = false :=
  ⟨modificationRequired_create_after_odd_run isBundleFlagSpec
      ["--bundle", "create", "container1"]
      (fun i hi => match i, hi with
        | 0, hi => by simp at hi
        | 1, _ => by decide
        | 2, hi => by simp at hi
        | n + 3, hi => by simp at hi),
    modificationRequired_create_after_odd_run isBundleFlagSpec
      ["-b", "--bundle", "-b", "create"]
      (fun i hi => match i, hi with
        | 0, hi => by simp at hi
        | 1, hi => by simp at hi
        | 2, hi => by simp at hi
        | 3, _ => by decide
        | n + 4, hi => by simp at hi)⟩

/-- C3: an argument vector with no token equal to `create` gives false. -/
theorem modificationRequired_no_create (isBundleFlag : String → Bool)
    (args : List String) (h : "create" ∉ args) :
    modificationRequired isBundleFlag args = false :=
  loop_no_create isBundleFlag args false h

/-- C3, at the empty vector and at Example 3 of the specification. -/
theorem modificationRequired_no_create_witness :
    modificationRequired isBundleFlagSpec [] = false ∧
      modificationRequired isBundleFlagSpec ["start", "container1"] = false :=
  ⟨modificationRequired_no_create isBundleFlagSpec [] (by simp),
    modificationRequired_no_create isBundleFlagSpec ["start", "container1"] (by decide)⟩

/-- C4: a bundle flag consumes exactly the token after it, whatever that token is, and
the scan resumes from the clean state. -/
theorem modificationRequired_bundle_value (isBundleFlag : String → Bool)
    (b v : String) (rest : List String) (hb : isBundleFlag b = true) :
    modificationRequired isBundleFlag ([b, v] ++ rest) =
      modificationRequired isBundleFlag rest := by
  simp [modificationRequired, modificationRequiredLoop, hb]

/-- C4, at Example 2 of the specification: the first `create` is the bundle value, the
result is that of the tail. -/
theorem modificationRequired_bundle_value_witness :
    modificationRequired isBundleFlagSpec
        ["--bundle", "create", "somecontainer", "create"] =
      modificationRequired isBundleFlagSpec ["somecontainer", "create"] ∧
    modificationRequired isBundleFlagSpec ["somecontainer", "create"] = true :=
  ⟨modificationRequired_bundle_value isBundleFlagSpec "--bundle" "create"
      ["somecontainer", "create"] (by decide), by decide⟩

/-! ## Properties of the hook injector -/

/-- The scan loop finds an entry exactly when some entry identifies the hook program. -/
theorem hasCgroupfsHook_eq_any (l : List Hook) :
    hasCgroupfsHook l = l.any isCgroupfsHook := by
  induction l with
  | nil => rfl
  | cons hook rest ih =>
    unfold hasCgroupfsHook
    cases h : stringsContains hook.Path hookName <;> simp [isCgroupfsHook, h, ih]

/-- With the hook path resolved to `p`, `addCgroupfsHook` is the injection of `p`. -/
theorem addCgroupfsHook_of_resolves {β : Type} (env : HookEnv) (p : String)
    (spec : Spec β) (hres : ResolvesTo env p) :
    addCgroupfsHook env spec = injectHook p spec := by
  unfold addCgroupfsHook
  rcases hres with h | ⟨⟨e, he⟩, hstat, hp⟩
  · rw [h]
  · rw [he]
    simp only [hstat, hp]

/-- Injection itself never fails. -/
theorem injectHook_fst {β : Type} (p : String) (spec : Spec β) :
    (injectHook p spec).1 = none := by
  unfold injectHook
  split
  · rfl
  · split <;> rfl

/-- The length test in front of the scan loop is implied by the loop finding an entry. -/
theorem length_ne_zero_and_has (l : List Hook) :
    (l.length != 0 && hasCgroupfsHook l) = hasCgroupfsHook l := by
  cases l with
  | nil => rfl
  | cons hook rest => simp

/-- The Prestart sequence after injection. -/
theorem injectHook_prestart {β : Type} (p : String) (spec : Spec β) :
    (injectHook p spec).2.prestart =
      if hasCgroupfsHook spec.prestart then spec.prestart
      else spec.prestart ++ [newHook p] := by
  unfold injectHook Spec.prestart
  cases hh : spec.Hooks with
  | none => simp [hasCgroupfsHook, Hooks.zero]
  | some hooks =>
    simp only [length_ne_zero_and_has]
    cases hhas : hasCgroupfsHook hooks.Prestart <;> simp [hh]

/-- Injection into a specification that already has the hook changes nothing. -/
theorem injectHook_of_has {β : Type} (p : String) (spec : Spec β)
    (hhas : hasCgroupfsHook spec.prestart = true) :
    injectHook p spec = (none, spec) := by
  unfold injectHook
  unfold Spec.prestart at hhas
  cases hh : spec.Hooks with
  | none => rw [hh] at hhas; simp [hasCgroupfsHook] at hhas
  | some hooks =>
    rw [hh] at hhas
    simp only [length_ne_zero_and_has]
    simp [hhas]

/-- Once the hook is present, any number of further runs changes nothing. -/
theorem addCgroupfsHookTimes_of_has {β : Type} (env : HookEnv) (p : String)
    (hres : ResolvesTo env p) (n : Nat) (spec : Spec β)
    (hhas : hasCgroupfsHook spec.prestart = true) :
    addCgroupfsHookTimes env n spec = (none, spec) := by
  induction n with
  | zero => rfl
  | succ n ih =>
    unfold addCgroupfsHookTimes
    rw [addCgroupfsHook_of_resolves env p spec hres, injectHook_of_has p spec hhas]
    exact ih

/-- C5: on a specification without a Hooks section, with the hook path resolved to
`p`, `addCgroupfsHook` succeeds and leaves a Hooks section whose Prestart sequence is
the single entry with `Path = p` and `Args = [p, "prestart"]`. -/
theorem addCgroupfsHook_absent_hooks {β : Type} (env : HookEnv) (p : String)
    (spec : Spec β) (hres : ResolvesTo env p) (habsent : spec.Hooks = none) :
    (addCgroupfsHook env spec).1 = none ∧
      ∃ hooks, (addCgroupfsHook env spec).2.Hooks = some hooks ∧
        hooks.Prestart =
          [{ Path := p, Args := [p, "prestart"], Env := [], Timeout := none }] := by
  rw [addCgroupfsHook_of_resolves env p spec hres]
  unfold injectHook
  rw [habsent]
  exact ⟨rfl, _, rfl, rfl⟩

/-- C5, with the hook found on the search path and with the fallback path. -/
theorem addCgroupfsHook_absent_hooks_witness :
    ((addCgroupfsHook envOnPath ({ Hooks := none, Rest := () } : Spec Unit)).1 = none ∧
      ∃ hooks,
        (addCgroupfsHook envOnPath ({ Hooks := none, Rest := () } : Spec Unit)).2.Hooks =
          some hooks ∧
        hooks.Prestart =
          [{ Path := "/usr/bin/cgroupfs-container-runtime-hook",
             Args := ["/usr/bin/cgroupfs-container-runtime-hook", "prestart"],
             Env := [], Timeout := none }]) ∧
    ((addCgroupfsHook envFallback ({ Hooks := none, Rest := () } : Spec Unit)).1 = none ∧
      ∃ hooks,
        (addCgroupfsHook envFallback ({ Hooks := none, Rest := () } : Spec Unit)).2.Hooks =
          some hooks ∧
        hooks.Prestart =
          [{ Path := "/usr/local/bin/cgroupfs-container-runtime-hook",
             Args := ["/usr/local/bin/cgroupfs-container-runtime-hook", "prestart"],
             Env := [], Timeout := none }]) :=
  ⟨addCgroupfsHook_absent_hooks envOnPath "/usr/bin/cgroupfs-container-runtime-hook"
      { Hooks := none, Rest := () } (Or.inl (congrArg Except.ok (by decide))) rfl,
    addCgroupfsHook_absent_hooks envFallback
      "/usr/local/bin/cgroupfs-container-runtime-hook"
      { Hooks := none, Rest := () } (Or.inr ⟨⟨_, rfl⟩, rfl, rfl⟩) rfl⟩

/-- C6: if some entry of the Prestart sequence, anywhere in it and whatever its
arguments, has a `Path` containing the hook name, then with the hook path resolved
`addCgroupfsHook` succeeds and leaves the Prestart sequence unchanged. -/
theorem addCgroupfsHook_idempotent {β : Type} (env : HookEnv) (p : String)
    (spec : Spec β) (hres : ResolvesTo env p)
    (hpresent : ∃ hook ∈ spec.prestart,
      stringsContains hook.Path "cgroupfs-container-runtime-hook" = true) :
    (addCgroupfsHook env spec).1 = none ∧
      (addCgroupfsHook env spec).2.prestart = spec.prestart := by
  have hhas : hasCgroupfsHook spec.prestart = true := by
    rw [hasCgroupfsHook_eq_any, List.any_eq_true]
    exact hpresent
  rw [addCgroupfsHook_of_resolves env p spec hres, injectHook_of_has p spec hhas]
  exact ⟨rfl, rfl⟩

/-- C6, with the matching entry in the middle of three. -/
theorem addCgroupfsHook_idempotent_witness :
    (addCgroupfsHook envOnPath
        ({ Hooks := some { Hooks.zero with
                            Prestart := [otherHook, presentHook, otherHook] },
           Rest := () } : Spec Unit)).1 = none ∧
      (addCgroupfsHook envOnPath
        ({ Hooks := some { Hooks.zero with
                            Prestart := [otherHook, presentHook, otherHook] },
           Rest := () } : Spec Unit)).2.prestart =
        [otherHook, presentHook, otherHook] :=
  addCgroupfsHook_idempotent envOnPath "/usr/bin/cgroupfs-container-runtime-hook"
    { Hooks := some { Hooks.zero with Prestart := [otherHook, presentHook, otherHook] },
      Rest := () }
    (Or.inl (congrArg Except.ok (by decide)))
    ⟨presentHook, by decide, by decide⟩

/-- C7: with the hook path resolved to `p`, the Prestart sequence after
`addCgroupfsHook` is the old one or the old one with the entry
`{Path: p, Args: [p, "prestart"]}` appended, and it is the latter exactly when no old
entry has a `Path` containing the hook name. -/
theorem addCgroupfsHook_appends {β : Type} (env : HookEnv) (p : String)
    (spec : Spec β) (hres : ResolvesTo env p) :
    ((addCgroupfsHook env spec).2.prestart = spec.prestart ∨
      (addCgroupfsHook env spec).2.prestart = spec.prestart ++
        [{ Path := p, Args := [p, "prestart"], Env := [], Timeout := none }]) ∧
    ((addCgroupfsHook env spec).2.prestart = spec.prestart ++
        [{ Path := p, Args := [p, "prestart"], Env := [], Timeout := none }] ↔
      ∀ hook ∈ spec.prestart,
        stringsContains hook.Path "cgroupfs-container-runtime-hook" = false) := by
  rw [addCgroupfsHook_of_resolves env p spec hres, injectHook_prestart]
  have hnew : newHook p =
      { Path := p, Args := [p, "prestart"], Env := [], Timeout := none } := rfl
  rw [hnew]
  cases hhas : hasCgroupfsHook spec.prestart with
  | true =>
    refine ⟨Or.inl (by simp), ?_⟩
    rw [hasCgroupfsHook_eq_any, List.any_eq_true] at hhas
    obtain ⟨hook, hmem, hhook⟩ := hhas
    constructor
    · intro h
      simp at h
    · intro h
      have := h hook hmem
      simp only [isCgroupfsHook, hookName] at hhook
      rw [hhook] at this
      cases this
  | false =>
    refine ⟨Or.inr (by simp), ?_⟩
    rw [hasCgroupfsHook_eq_any, List.any_eq_false] at hhas
    constructor
    · intro _ hook hmem
      have := hhas hook hmem
      simpa [isCgroupfsHook, hookName] using this
    · intro _
      simp

/-- C7, on a sequence of two unrelated entries: the new entry goes last. -/
theorem addCgroupfsHook_appends_witness :
    (addCgroupfsHook envFallback
        ({ Hooks := some { Hooks.zero with Prestart := [otherHook, otherHook] },
           Rest := () } : Spec Unit)).2.prestart =
      [otherHook, otherHook] ++
        [{ Path := "/usr/local/bin/cgroupfs-container-runtime-hook",
           Args := ["/usr/local/bin/cgroupfs-container-runtime-hook", "prestart"],
           Env := [], Timeout := none }] :=
  (addCgroupfsHook_appends envFallback "/usr/local/bin/cgroupfs-container-runtime-hook"
    { Hooks := some { Hooks.zero with Prestart := [otherHook, otherHook] }, Rest := () }
    (Or.inr ⟨⟨_, rfl⟩, rfl, rfl⟩)).2.mpr (by decide)

/-- One run keeps the number of entries naming the hook program at most one. -/
theorem injectHook_countP_le_one {β : Type} (p : String) (spec : Spec β)
    (hcount : spec.prestart.countP isCgroupfsHook ≤ 1) :
    (injectHook p spec).2.prestart.countP isCgroupfsHook ≤ 1 := by
  rw [injectHook_prestart]
  cases hhas : hasCgroupfsHook spec.prestart with
  | true => simpa using hcount
  | false =>
    rw [hasCgroupfsHook_eq_any, List.any_eq_false] at hhas
    have hzero : spec.prestart.countP isCgroupfsHook = 0 := by
      rw [List.countP_eq_zero]
      intro hook hmem
      simpa using hhas hook hmem
    simp only [Bool.false_eq_true, if_false, List.countP_append, hzero, Nat.zero_add]
    exact List.countP_le_length _

/-- C8 as stated fails: a specification that starts with two entries naming the hook
program still has two after a successful run, since the injector only refrains from
adding and never removes. -/
theorem at_most_one_hook_counterexample :
    ResolvesTo envOnPath "/usr/bin/cgroupfs-container-runtime-hook" ∧
      (addCgroupfsHookTimes envOnPath 1
        ({ Hooks := some { Hooks.zero with Prestart := [presentHook, presentHook] },
           Rest := () } : Spec Unit)).1 = none ∧
      (addCgroupfsHookTimes envOnPath 1
        ({ Hooks := some { Hooks.zero with Prestart := [presentHook, presentHook] },
           Rest := () } : Spec Unit)).2.prestart.countP
          (fun hook => stringsContains hook.Path "cgroupfs-container-runtime-hook") = 2 :=
  ⟨Or.inl (congrArg Except.ok (by decide)), by decide, by decide⟩

/-- C8, amended: if the Prestart sequence starts with at most one entry whose `Path`
contains the hook name, then with the hook path resolved every run succeeds and after
any number of runs there is still at most one such entry. -/
theorem addCgroupfsHookTimes_at_most_one {β : Type} (env : HookEnv) (p : String)
    (hres : ResolvesTo env p) (n : Nat) (spec : Spec β)
    (hcount : spec.prestart.countP
      (fun hook => stringsContains hook.Path "cgroupfs-container-runtime-hook") ≤ 1) :
    (addCgroupfsHookTimes env n spec).1 = none ∧
      (addCgroupfsHookTimes env n spec).2.prestart.countP
        (fun hook => stringsContains hook.Path "cgroupfs-container-runtime-hook") ≤ 1 := by
  have hfun : (fun hook : Hook =>
      stringsContains hook.Path "cgroupfs-container-runtime-hook") = isCgroupfsHook := rfl
  rw [hfun] at hcount ⊢
  induction n generalizing spec with
  | zero => exact ⟨rfl, hcount⟩
  | succ n ih =>
    have hstep : addCgroupfsHookTimes env (n + 1) spec =
        addCgroupfsHookTimes env n (injectHook p spec).2 := by
      conv => lhs; unfold addCgroupfsHookTimes
      rw [addCgroupfsHook_of_resolves env p spec hres]
      have h1 := injectHook_fst p spec
      revert h1
      cases injectHook p spec with
      | mk e s1 => intro h1; simp only at h1; subst h1; rfl
    rw [hstep]
    exact ih _ (injectHook_countP_le_one p spec hcount)

/-- C8, amended, at three runs on a sequence with one unrelated entry. -/
theorem addCgroupfsHookTimes_at_most_one_witness :
    (addCgroupfsHookTimes envOnPath 3
        ({ Hooks := some { Hooks.zero with Prestart := [otherHook] },
           Rest := () } : Spec Unit)).1 = none ∧
      (addCgroupfsHookTimes envOnPath 3
        ({ Hooks := some { Hooks.zero with Prestart := [otherHook] },
           Rest := () } : Spec Unit)).2.prestart.countP
        (fun hook => stringsContains hook.Path "cgroupfs-container-runtime-hook") ≤ 1 :=
  addCgroupfsHookTimes_at_most_one envOnPath "/usr/bin/cgroupfs-container-runtime-hook"
    (Or.inl (congrArg Except.ok (by decide))) 3
    { Hooks := some { Hooks.zero with Prestart := [otherHook] }, Rest := () }
    (by decide)

/-- C9: starting with no entry whose `Path` contains the hook name, and with a resolved
hook path `p` that contains it, any `n ≥ 1` runs succeed and leave exactly one such
entry, the entry `{Path: p, Args: [p, "prestart"]}` appended at the end by the first
run; the result of `n` runs is the result of the first. -/
theorem addCgroupfsHookTimes_exactly_one {β : Type} (env : HookEnv) (p : String)
    (hres : ResolvesTo env p)
    (hp : stringsContains p "cgroupfs-container-runtime-hook" = true)
    (n : Nat) (hn : 1 ≤ n) (spec : Spec β)
    (hnone : ∀ hook ∈ spec.prestart,
      stringsContains hook.Path "cgroupfs-container-runtime-hook" = false) :
    (addCgroupfsHookTimes env n spec).1 = none ∧
      (addCgroupfsHookTimes env n spec).2.prestart = spec.prestart ++
        [{ Path := p, Args := [p, "prestart"], Env := [], Timeout := none }] ∧
      (addCgroupfsHookTimes env n spec).2.prestart.filter
          (fun hook => stringsContains hook.Path "cgroupfs-container-runtime-hook") =
        [{ Path := p, Args := [p, "prestart"], Env := [], Timeout := none }] ∧
      addCgroupfsHookTimes env n spec = addCgroupfsHook env spec := by
  have hfun : (fun hook : Hook =>
      stringsContains hook.Path "cgroupfs-container-runtime-hook") = isCgroupfsHook := rfl
  have hnew : newHook p =
      { Path := p, Args := [p, "prestart"], Env := [], Timeout := none } := rfl
  have hnewhook : isCgroupfsHook (newHook p) = true := hp
  have hold : hasCgroupfsHook spec.prestart = false := by
    rw [hasCgroupfsHook_eq_any, List.any_eq_false]
    intro hook hmem
    simpa [isCgroupfsHook, hookName] using hnone hook hmem
  have hfirst : (injectHook p spec).2.prestart = spec.prestart ++ [newHook p] := by
    rw [injectHook_prestart, hold]; simp
  have hhas : hasCgroupfsHook (injectHook p spec).2.prestart = true := by
    rw [hfirst, hasCgroupfsHook_eq_any]
    simp [hnewhook]
  obtain ⟨m, rfl⟩ : ∃ m, n = m + 1 := ⟨n - 1, by omega⟩
  have hruns : addCgroupfsHookTimes env (m + 1) spec = injectHook p spec := by
    conv => lhs; unfold addCgroupfsHookTimes
    rw [addCgroupfsHook_of_resolves env p spec hres]
    have h1 := injectHook_fst p spec
    have h2 := addCgroupfsHookTimes_of_has env p hres m (injectHook p spec).2 hhas
    revert h1 h2
    cases injectHook p spec with
    | mk e s1 => intro h1 h2; simp only at h1 h2; subst h1; simpa using h2
  rw [hruns, addCgroupfsHook_of_resolves env p spec hres, hfun, ← hnew]
  refine ⟨injectHook_fst p spec, hfirst, ?_, rfl⟩
  rw [hfirst, List.filter_append]
  have hfilter : spec.prestart.filter isCgroupfsHook = [] := by
    rw [List.filter_eq_nil_iff]
    intro hook hmem
    simpa [isCgroupfsHook, hookName] using hnone hook hmem
  simp [hfilter, hnewhook]

/-- C9, at four runs on a sequence with one unrelated entry. -/
theorem addCgroupfsHookTimes_exactly_one_witness :
    (addCgroupfsHookTimes envOnPath 4
        ({ Hooks := some { Hooks.zero with Prestart := [otherHook] },
           Rest := () } : Spec Unit)).2.prestart =
      [otherHook,
        { Path := "/usr/bin/cgroupfs-container-runtime-hook",
          Args := ["/usr/bin/cgroupfs-container-runtime-hook", "prestart"],
          Env := [], Timeout := none }] :=
  (addCgroupfsHookTimes_exactly_one envOnPath "/usr/bin/cgroupfs-container-runtime-hook"
    (Or.inl (congrArg Except.ok (by decide))) (by decide) 4 (by decide)
    { Hooks := some { Hooks.zero with Prestart := [otherHook] }, Rest := () }
    (by decide)).2.1

/-! ## Properties of the runtime shim -/

/-- C10: when `modificationRequired args` is false, `Exec args` makes exactly one
collaborator call, the delegate's `Exec` with `args` itself (so no `Load`, `Modify` or
`Flush`), and returns what the delegate returned, error or not. -/
theorem Exec_passthrough {ω β : Type} (r : cgroupfsContainerRuntime ω β)
    (args : List String) (w : World ω β)
    (hnot : modificationRequired r.isBundleFlag args = false) :
    Exec r args w =
      ((r.runtime.Exec args w.state).1,
        { state := (r.runtime.Exec args w.state).2,
          calls := w.calls ++ [Call.RuntimeExec args] }) := by
  unfold Exec
  rw [hnot]
  rfl

/-- C10, at `start container1` with a delegate that fails: the error comes back as it
is and the world has seen the delegate only. -/
theorem Exec_passthrough_witness :
    Exec shimExample ["start", "container1"] { state := 0, calls := [] } =
      (some "exit status 1",
        { state := 1, calls := [Call.RuntimeExec ["start", "container1"]] }) :=
  Exec_passthrough shimExample ["start", "container1"] { state := 0, calls := [] }
    (by decide)

/-- When `Load` fails, `modifyOCISpec` returns its error with context after that one
call. -/
theorem modifyOCISpec_load_fails {ω β : Type} (r : cgroupfsContainerRuntime ω β)
    (w : World ω β) (e : Err) (hload : (loadResult r w).1 = some e) :
    modifyOCISpec r w =
      (some ("error loading OCI specification for modification: " ++ e),
        { state := (loadResult r w).2, calls := w.calls ++ [Call.Load] }) := by
  unfold modifyOCISpec
  unfold loadResult at hload
  rcases hL : r.ociSpec.Load w.state with ⟨e1, s1⟩
  rw [hL] at hload
  simp only at hload
  subst hload
  simp [loadResult, hL]

/-- When `Load` succeeds and `Modify` fails, `modifyOCISpec` returns the error of
`Modify` with context after those two calls. -/
theorem modifyOCISpec_modify_fails {ω β : Type} (r : cgroupfsContainerRuntime ω β)
    (w : World ω β) (e : Err) (hload : (loadResult r w).1 = none)
    (hmodify : (modifyResult r w).1 = some e) :
    modifyOCISpec r w =
      (some ("error injecting Cgroufs Container Runtime hook: " ++ e),
        { state := (modifyResult r w).2,
          calls := w.calls ++ [Call.Load, Call.Modify (addCgroupfsHook r.hookEnv)] }) := by
  unfold modifyOCISpec
  unfold modifyResult at hmodify
  unfold loadResult at hload hmodify
  rcases hL : r.ociSpec.Load w.state with ⟨e1, s1⟩
  rw [hL] at hload hmodify
  simp only at hload hmodify
  subst hload
  rcases hM : r.ociSpec.Modify (addCgroupfsHook r.hookEnv) s1 with ⟨e2, s2⟩
  rw [hM] at hmodify
  simp only at hmodify
  subst hmodify
  simp [modifyResult, loadResult, hL, hM]

/-- When `Load` and `Modify` succeed and `Flush` fails, `modifyOCISpec` returns the
error of `Flush` with context after the three calls. -/
theorem modifyOCISpec_flush_fails {ω β : Type} (r : cgroupfsContainerRuntime ω β)
    (w : World ω β) (e : Err) (hload : (loadResult r w).1 = none)
    (hmodify : (modifyResult r w).1 = none) (hflush : (flushResult r w).1 = some e) :
    modifyOCISpec r w =
      (some ("error writing modified OCI specification: " ++ e),
        { state := (flushResult r w).2,
          calls := w.calls ++
            [Call.Load, Call.Modify (addCgroupfsHook r.hookEnv), Call.Flush] }) := by
  unfold modifyOCISpec
  unfold flushResult at hflush
  unfold modifyResult at hmodify hflush
  unfold loadResult at hload hmodify hflush
  rcases hL : r.ociSpec.Load w.state with ⟨e1, s1⟩
  rw [hL] at hload hmodify hflush
  simp only at hload hmodify hflush
  subst hload
  rcases hM : r.ociSpec.Modify (addCgroupfsHook r.hookEnv) s1 with ⟨e2, s2⟩
  rw [hM] at hmodify hflush
  simp only at hmodify hflush
  subst hmodify
  rcases hF : r.ociSpec.Flush s2 with ⟨e3, s3⟩
  rw [hF] at hflush
  simp only at hflush
  subst hflush
  simp [flushResult, modifyResult, loadResult, hL, hM, hF]

/-- When the three steps succeed, `modifyOCISpec` returns nil after the three calls. -/
theorem modifyOCISpec_succeeds {ω β : Type} (r : cgroupfsContainerRuntime ω β)
    (w : World ω β) (hsucc : SpecStepsSucceed r w) :
    modifyOCISpec r w =
      (none,
        { state := (flushResult r w).2,
          calls := w.calls ++
            [Call.Load, Call.Modify (addCgroupfsHook r.hookEnv), Call.Flush] }) := by
  obtain ⟨hload, hmodify, hflush⟩ := hsucc
  unfold modifyOCISpec
  unfold flushResult at hflush
  unfold modifyResult at hmodify hflush
  unfold loadResult at hload hmodify hflush
  rcases hL : r.ociSpec.Load w.state with ⟨e1, s1⟩
  rw [hL] at hload hmodify hflush
  simp only at hload hmodify hflush
  subst hload
  rcases hM : r.ociSpec.Modify (addCgroupfsHook r.hookEnv) s1 with ⟨e2, s2⟩
  rw [hM] at hmodify hflush
  simp only at hmodify hflush
  subst hmodify
  rcases hF : r.ociSpec.Flush s2 with ⟨e3, s3⟩
  rw [hF] at hflush
  simp only at hflush
  subst hflush
  simp [flushResult, modifyResult, loadResult, hL, hM, hF]

/-- When a step fails, `modifyOCISpec` returns an error and has not called the
delegate. -/
theorem modifyOCISpec_fails {ω β : Type} (r : cgroupfsContainerRuntime ω β)
    (w : World ω β) (hfail : ¬ SpecStepsSucceed r w) :
    ∃ (e : Err) (s : ω) (made : List (Call β)),
      modifyOCISpec r w = (some e, { state := s, calls := w.calls ++ made }) ∧
      made.any Call.isRuntimeExec = false := by
  cases hload : (loadResult r w).1 with
  | some e =>
    exact ⟨_, _, _, modifyOCISpec_load_fails r w e hload, by simp [Call.isRuntimeExec]⟩
  | none =>
    cases hmodify : (modifyResult r w).1 with
    | some e =>
      exact ⟨_, _, _, modifyOCISpec_modify_fails r w e hload hmodify,
        by simp [Call.isRuntimeExec]⟩
    | none =>
      cases hflush : (flushResult r w).1 with
      | some e =>
        exact ⟨_, _, _, modifyOCISpec_flush_fails r w e hload hmodify hflush,
          by simp [Call.isRuntimeExec]⟩
      | none => exact absurd ⟨hload, hmodify, hflush⟩ hfail

/-- C11: `Exec args` invokes the delegate runtime if and only if
`modificationRequired args` is false or all three of `Load`, `Modify` and `Flush`
succeeded; when modification is required and one of the three fails, `Exec` returns a
non-nil error and the delegate is not invoked. -/
theorem Exec_fail_closed {ω β : Type} (r : cgroupfsContainerRuntime ω β)
    (args : List String) (w : World ω β) :
    ((callsMade r args w).any Call.isRuntimeExec = true ↔
      (modificationRequired r.isBundleFlag args = false ∨ SpecStepsSucceed r w)) ∧
    (modificationRequired r.isBundleFlag args = true → ¬ SpecStepsSucceed r w →
      (Exec r args w).1 ≠ none ∧ (callsMade r args w).any Call.isRuntimeExec = false) := by
  cases hm : modificationRequired r.isBundleFlag args with
  | false =>
    have hexec : Exec r args w = forward r args w := by
      unfold Exec; rw [hm]; rfl
    refine ⟨?_, fun h => by cases h⟩
    simp [callsMade, hexec, forward, Call.isRuntimeExec]
  | true =>
    by_cases hs : SpecStepsSucceed r w
    · have hexec : Exec r args w =
          forward r args
            { state := (flushResult r w).2,
              calls := w.calls ++
                [Call.Load, Call.Modify (addCgroupfsHook r.hookEnv), Call.Flush] } := by
        unfold Exec; rw [hm, modifyOCISpec_succeeds r w hs]; rfl
      refine ⟨?_, fun _ hn => absurd hs hn⟩
      simp [callsMade, hexec, forward, Call.isRuntimeExec, hs]
    · obtain ⟨e, s1, made, hmod, hmade⟩ := modifyOCISpec_fails r w hs
      have hexec : Exec r args w =
          (some ("error modifying OCI spec: " ++ e),
            { state := s1, calls := w.calls ++ made }) := by
        unfold Exec; rw [hm, hmod]; rfl
      have hcalls : callsMade r args w = made := by
        simp [callsMade, hexec]
      refine ⟨?_, fun _ _ => ⟨by simp [hexec], by rw [hcalls]; exact hmade⟩⟩
      rw [hcalls, hmade]
      simp [hs]

/-- C11, at `create container1` with a specification that cannot be loaded: an error
comes back and the delegate is not invoked. -/
theorem Exec_fail_closed_witness :
    (Exec shimLoadFails ["create", "container1"] { state := 0, calls := [] }).1 ≠ none ∧
      (callsMade shimLoadFails ["create", "container1"]
        { state := 0, calls := [] }).any Call.isRuntimeExec = false :=
  (Exec_fail_closed shimLoadFails ["create", "container1"] { state := 0, calls := [] }).2
    (by decide) (fun h => absurd h.1 (by decide))

/-- C12: when `modificationRequired args` is true and `Load`, `Modify` and `Flush` all
succeed, `Exec args` calls, once each and in this order, `Load`, `Modify` with
`addCgroupfsHook`, `Flush` and the delegate with `args` itself, and returns what the
delegate returned. -/
theorem Exec_modifies_then_forwards {ω β : Type} (r : cgroupfsContainerRuntime ω β)
    (args : List String) (w : World ω β)
    (hreq : modificationRequired r.isBundleFlag args = true)
    (hsucc : SpecStepsSucceed r w) :
    Exec r args w =
      ((r.runtime.Exec args (flushResult r w).2).1,
        { state := (r.runtime.Exec args (flushResult r w).2).2,
          calls := w.calls ++
            [Call.Load, Call.Modify (addCgroupfsHook r.hookEnv), Call.Flush,
              Call.RuntimeExec args] }) := by
  unfold Exec
  rw [hreq, modifyOCISpec_succeeds r w hsucc]
  simp [forward]

/-- C12, at `create container1` with collaborators that succeed: four calls in order,
and the delegate's nil comes back. -/
theorem Exec_modifies_then_forwards_witness :
    Exec shimExample ["create", "container1"] { state := 0, calls := [] } =
      (none,
        { state := 1111,
          calls := [Call.Load, Call.Modify (addCgroupfsHook envOnPath), Call.Flush,
            Call.RuntimeExec ["create", "container1"]] }) :=
  Exec_modifies_then_forwards shimExample ["create", "container1"]
    { state := 0, calls := [] } (by decide) ⟨rfl, rfl, rfl⟩

/-- With the lookup and the stat of the fallback both failing, `addCgroupfsHook`
returns the error of the stat whatever the specification. -/
theorem addCgroupfsHook_unresolved {β : Type} (env : HookEnv) (spec : Spec β)
    (e1 e2 : Err) (hlook : env.LookPath hookName = .error e1)
    (hstat : env.Stat env.hookDefaultFilePath = some e2) :
    addCgroupfsHook env spec = (some e2, spec) := by
  unfold addCgroupfsHook
  rw [hlook]
  simp only [hstat]

/-- C13: the modification sequence stops at its first failing step.  If `Load` fails,
`Load` is the only call; if `Modify` fails, the calls are `Load` and `Modify` and
`Flush` is not called.  In particular, when `Modify` returns the error of the mutator
applied to a specification, the lookup fails and the fallback path does not exist, a
`create` invocation returns an error after `Load`, or after `Load` and `Modify`, without
calling `Flush` or the delegate. -/
theorem modifyOCISpec_stops_at_first_failure {ω β : Type}
    (r : cgroupfsContainerRuntime ω β) (args : List String) (w : World ω β) :
    (∀ e, (loadResult r w).1 = some e →
      modifyOCISpec r w =
        (some ("error loading OCI specification for modification: " ++ e),
          { state := (loadResult r w).2, calls := w.calls ++ [Call.Load] })) ∧
    (∀ e, (loadResult r w).1 = none → (modifyResult r w).1 = some e →
      modifyOCISpec r w =
        (some ("error injecting Cgroufs Container Runtime hook: " ++ e),
          { state := (modifyResult r w).2,
            calls := w.calls ++
              [Call.Load, Call.Modify (addCgroupfsHook r.hookEnv)] })) ∧
    (modificationRequired r.isBundleFlag args = true →
      (∀ mutator s, ∃ spec, (r.ociSpec.Modify mutator s).1 = (mutator spec).1) →
      ∀ e1 e2, r.hookEnv.LookPath "cgroupfs-container-runtime-hook" = .error e1 →
        r.hookEnv.Stat r.hookEnv.hookDefaultFilePath = some e2 →
        match (loadResult r w).1 with
        | some e =>
          Exec r args w =
            (some ("error modifying OCI spec: " ++
                ("error loading OCI specification for modification: " ++ e)),
              { state := (loadResult r w).2, calls := w.calls ++ [Call.Load] })
        | none =>
          Exec r args w =
            (some ("error modifying OCI spec: " ++
                ("error injecting Cgroufs Container Runtime hook: " ++ e2)),
              { state := (modifyResult r w).2,
                calls := w.calls ++
                  [Call.Load, Call.Modify (addCgroupfsHook r.hookEnv)] })) := by
  refine ⟨fun e h => modifyOCISpec_load_fails r w e h,
    fun e h1 h2 => modifyOCISpec_modify_fails r w e h1 h2, ?_⟩
  intro hreq hmodel e1 e2 hlook hstat
  cases hload : (loadResult r w).1 with
  | some e =>
    simp only
    unfold Exec
    rw [hreq, modifyOCISpec_load_fails r w e hload]
    rfl
  | none =>
    simp only
    obtain ⟨spec, hspec⟩ := hmodel (addCgroupfsHook r.hookEnv) (loadResult r w).2
    have hmodify : (modifyResult r w).1 = some e2 := by
      unfold modifyResult
      rw [hspec, addCgroupfsHook_unresolved r.hookEnv spec e1 e2 hlook hstat]
    unfold Exec
    rw [hreq, modifyOCISpec_modify_fails r w e2 hload hmodify]
    rfl

/-- C13, at Example 4 of the specification: `create container1` on a machine without
the hook program returns the stat error with its two layers of context, after `Load`
and `Modify` only. -/
theorem modifyOCISpec_stops_at_first_failure_witness :
    Exec shimNoHook ["create", "container1"] { state := 0, calls := [] } =
      (some ("error modifying OCI spec: " ++
          ("error injecting Cgroufs Container Runtime hook: " ++
            "stat: no such file or directory")),
        { state := 110,
          calls := [Call.Load, Call.Modify (addCgroupfsHook envMissing)] }) :=
  (modifyOCISpec_stops_at_first_failure shimNoHook ["create", "container1"]
    { state := 0, calls := [] }).2.2 (by decide)
    (fun mutator _ => ⟨{ Hooks := none, Rest := () }, rfl⟩)
    "executable file not found in $PATH" "stat: no such file or directory" rfl rfl

/-! ## Hook resolution, atomicity and frame of the injector -/

/-- The Prestart sequence after injection, with the scan written as a search. -/
theorem injectHook_prestart_any {β : Type} (p : String) (spec : Spec β) :
    (injectHook p spec).2.prestart =
      if spec.prestart.any
          (fun hook => stringsContains hook.Path "cgroupfs-container-runtime-hook") then
        spec.prestart
      else
        spec.prestart ++
          [{ Path := p, Args := [p, "prestart"], Env := [], Timeout := none }] := by
  rw [injectHook_prestart, hasCgroupfsHook_eq_any]
  rfl

/-- C14: `addCgroupfsHook` injects the path returned by the search-path lookup when the
lookup succeeds, otherwise the fallback path when its stat succeeds; it returns an
error if and only if both the lookup and the stat fail, and the error it returns does
not depend on the specification. -/
theorem addCgroupfsHook_resolution {β : Type} (env : HookEnv) (spec : Spec β) :
    (∀ p, env.LookPath "cgroupfs-container-runtime-hook" = .ok p →
      (addCgroupfsHook env spec).1 = none ∧
      (addCgroupfsHook env spec).2.prestart =
        if spec.prestart.any
            (fun hook => stringsContains hook.Path "cgroupfs-container-runtime-hook") then
          spec.prestart
        else
          spec.prestart ++
            [{ Path := p, Args := [p, "prestart"], Env := [], Timeout := none }]) ∧
    (∀ e, env.LookPath "cgroupfs-container-runtime-hook" = .error e →
      env.Stat env.hookDefaultFilePath = none →
      (addCgroupfsHook env spec).1 = none ∧
      (addCgroupfsHook env spec).2.prestart =
        if spec.prestart.any
            (fun hook => stringsContains hook.Path "cgroupfs-container-runtime-hook") then
          spec.prestart
        else
          spec.prestart ++
            [{ Path := env.hookDefaultFilePath,
               Args := [env.hookDefaultFilePath, "prestart"],
               Env := [], Timeout := none }]) ∧
    ((addCgroupfsHook env spec).1 ≠ none ↔
      (∃ e, env.LookPath "cgroupfs-container-runtime-hook" = .error e) ∧
        (∃ e, env.Stat env.hookDefaultFilePath = some e)) ∧
    (∀ spec1 : Spec β, (addCgroupfsHook env spec1).1 = (addCgroupfsHook env spec).1) := by
  have hname : hookName = "cgroupfs-container-runtime-hook" := rfl
  refine ⟨?_, ?_, ?_, ?_⟩
  · intro p hp
    rw [addCgroupfsHook_of_resolves env p spec (Or.inl hp)]
    exact ⟨injectHook_fst p spec, injectHook_prestart_any p spec⟩
  · intro e he hstat
    rw [addCgroupfsHook_of_resolves env env.hookDefaultFilePath spec
      (Or.inr ⟨⟨e, he⟩, hstat, rfl⟩)]
    exact ⟨injectHook_fst _ spec, injectHook_prestart_any _ spec⟩
  · unfold addCgroupfsHook
    rw [hname]
    cases hl : env.LookPath "cgroupfs-container-runtime-hook" with
    | ok p => simp [injectHook_fst]
    | error e =>
      cases hs : env.Stat env.hookDefaultFilePath with
      | none => simp [injectHook_fst]
      | some e2 => simp
  · intro spec1
    unfold addCgroupfsHook
    cases env.LookPath hookName with
    | ok p => simp [injectHook_fst]
    | error e =>
      cases env.Stat env.hookDefaultFilePath with
      | none => simp [injectHook_fst]
      | some e2 => simp

/-- C14, with the lookup failing and the fallback present: the fallback path is the
one injected, after the existing entry. -/
theorem addCgroupfsHook_resolution_witness :
    (addCgroupfsHook envFallback
        ({ Hooks := some { Hooks.zero with Prestart := [otherHook] },
           Rest := () } : Spec Unit)).1 = none ∧
      (addCgroupfsHook envFallback
        ({ Hooks := some { Hooks.zero with Prestart := [otherHook] },
           Rest := () } : Spec Unit)).2.prestart =
        [otherHook,
          { Path := "/usr/local/bin/cgroupfs-container-runtime-hook",
            Args := ["/usr/local/bin/cgroupfs-container-runtime-hook", "prestart"],
            Env := [], Timeout := none }] :=
  (addCgroupfsHook_resolution envFallback
    { Hooks := some { Hooks.zero with Prestart := [otherHook] }, Rest := () }).2.1
    "executable file not found in $PATH" rfl rfl

/-- C18: whenever `addCgroupfsHook` returns an error, the specification after the call
is the specification before it; in particular an absent Hooks section is still absent
and the Prestart sequence is unchanged. -/
theorem addCgroupfsHook_error_atomic {β : Type} (env : HookEnv) (spec : Spec β)
    (e : Err) (herr : (addCgroupfsHook env spec).1 = some e) :
    (addCgroupfsHook env spec).2 = spec ∧
      (spec.Hooks = none → (addCgroupfsHook env spec).2.Hooks = none) ∧
      (addCgroupfsHook env spec).2.prestart = spec.prestart := by
  have hsame : (addCgroupfsHook env spec).2 = spec := by
    unfold addCgroupfsHook at herr ⊢
    cases hl : env.LookPath hookName with
    | ok p =>
      rw [hl] at herr
      simp [injectHook_fst] at herr
    | error e1 =>
      cases hs : env.Stat env.hookDefaultFilePath with
      | none =>
        rw [hl] at herr
        simp [hs, injectHook_fst] at herr
      | some e2 => simp
  rw [hsame]
  exact ⟨rfl, fun h => h, rfl⟩

/-- C18, on a machine without the hook program and a specification without a Hooks
section. -/
theorem addCgroupfsHook_error_atomic_witness :
    (addCgroupfsHook envMissing ({ Hooks := none, Rest := () } : Spec Unit)).2 =
      { Hooks := none, Rest := () } :=
  (addCgroupfsHook_error_atomic envMissing { Hooks := none, Rest := () }
    "stat: no such file or directory" rfl).1

/-- Injection keeps every field outside Hooks, keeps every list other than Prestart of
a Hooks section that was present, and creates a Hooks section with those lists empty
when it was absent. -/
theorem injectHook_frame {β : Type} (p : String) (spec : Spec β) :
    (injectHook p spec).2.Rest = spec.Rest ∧
      match spec.Hooks with
      | some hooks =>
        ∃ hooks1, (injectHook p spec).2.Hooks = some hooks1 ∧
          hooks1.CreateRuntime = hooks.CreateRuntime ∧
          hooks1.CreateContainer = hooks.CreateContainer ∧
          hooks1.StartContainer = hooks.StartContainer ∧
          hooks1.Poststart = hooks.Poststart ∧
          hooks1.Poststop = hooks.Poststop
      | none =>
        ∃ hooks1, (injectHook p spec).2.Hooks = some hooks1 ∧
          hooks1.CreateRuntime = [] ∧ hooks1.CreateContainer = [] ∧
          hooks1.StartContainer = [] ∧ hooks1.Poststart = [] ∧ hooks1.Poststop = [] := by
  unfold injectHook
  cases hh : spec.Hooks with
  | none => exact ⟨rfl, _, rfl, rfl, rfl, rfl, rfl, rfl⟩
  | some hooks =>
    simp only
    by_cases hc : (hooks.Prestart.length != 0 && hasCgroupfsHook hooks.Prestart) = true
    · rw [if_pos hc]
      exact ⟨rfl, hooks, hh, rfl, rfl, rfl, rfl, rfl⟩
    · rw [if_neg hc]
      exact ⟨rfl, _, rfl, rfl, rfl, rfl, rfl, rfl⟩

/-- C19: a successful `addCgroupfsHook` changes nothing other than the Prestart
sequence of the Hooks section.  Every field outside Hooks is kept; when a Hooks section
was present each of its other lists is kept; when it was absent the section created
has every list other than Prestart empty. -/
theorem addCgroupfsHook_frame {β : Type} (env : HookEnv) (spec : Spec β)
    (hsucc : (addCgroupfsHook env spec).1 = none) :
    (addCgroupfsHook env spec).2.Rest = spec.Rest ∧
      match spec.Hooks with
      | some hooks =>
        ∃ hooks1, (addCgroupfsHook env spec).2.Hooks = some hooks1 ∧
          hooks1.CreateRuntime = hooks.CreateRuntime ∧
          hooks1.CreateContainer = hooks.CreateContainer ∧
          hooks1.StartContainer = hooks.StartContainer ∧
          hooks1.Poststart = hooks.Poststart ∧
          hooks1.Poststop = hooks.Poststop
      | none =>
        ∃ hooks1, (addCgroupfsHook env spec).2.Hooks = some hooks1 ∧
          hooks1.CreateRuntime = [] ∧ hooks1.CreateContainer = [] ∧
          hooks1.StartContainer = [] ∧ hooks1.Poststart = [] ∧ hooks1.Poststop = [] := by
  unfold addCgroupfsHook at hsucc ⊢
  cases hl : env.LookPath hookName with
  | ok p => exact injectHook_frame p spec
  | error e1 =>
    cases hs : env.Stat env.hookDefaultFilePath with
    | none => exact injectHook_frame _ spec
    | some e2 =>
      rw [hl] at hsucc
      simp [hs] at hsucc

/-- C19, on a specification with a poststart and a poststop entry and a hostname
outside Hooks: the new Hooks section differs in Prestart only. -/
theorem addCgroupfsHook_frame_witness :
    (addCgroupfsHook envOnPath
        ({ Hooks := some { Hooks.zero with
                            Prestart := [otherHook], Poststart := [otherHook],
                            Poststop := [presentHook] },
           Rest := "hostname=c1" } : Spec String)) =
      (none,
        { Hooks := some { Hooks.zero with
                           Prestart := [otherHook,
                             { Path := "/usr/bin/cgroupfs-container-runtime-hook",
                               Args := ["/usr/bin/cgroupfs-container-runtime-hook",
                                 "prestart"],
                               Env := [], Timeout := none }],
                           Poststart := [otherHook], Poststop := [presentHook] },
          Rest := "hostname=c1" }) ∧
    (addCgroupfsHook envOnPath
        ({ Hooks := some { Hooks.zero with
                            Prestart := [otherHook], Poststart := [otherHook],
                            Poststop := [presentHook] },
           Rest := "hostname=c1" } : Spec String)).2.Rest = "hostname=c1" :=
  ⟨by decide,
    (addCgroupfsHook_frame envOnPath
      { Hooks := some { Hooks.zero with
                          Prestart := [otherHook], Poststart := [otherHook],
                          Poststop := [presentHook] },
        Rest := "hostname=c1" } (by decide)).1⟩

/-! ## The classifier against the scanner of the specification, and its closed form -/

/-- The loop of the code and the four-rule scanner agree from either state. -/
theorem loop_eq_specScan (isBundleFlag : String → Bool) :
    ∀ (args : List String) (prev : Bool),
      modificationRequiredLoop isBundleFlag prev args = specScan isBundleFlag prev args := by
  intro args
  induction args with
  | nil => intro prev; rfl
  | cons a rest ih =>
    intro prev
    unfold modificationRequiredLoop specScan
    cases prev <;> cases isBundleFlag a <;> simp [ih]

/-- A bundle flag at the very end changes nothing, from either state. -/
theorem loop_append_bundle_flag (isBundleFlag : String → Bool) (b : String)
    (hb : isBundleFlag b = true) :
    ∀ (args : List String) (prev : Bool),
      modificationRequiredLoop isBundleFlag prev (args ++ [b]) =
        modificationRequiredLoop isBundleFlag prev args := by
  intro args
  induction args with
  | nil =>
    intro prev
    cases prev <;> simp [modificationRequiredLoop, hb]
  | cons a rest ih =>
    intro prev
    simp only [List.cons_append]
    unfold modificationRequiredLoop
    simp only [ih]

/-- C15: for every argument vector `modificationRequired` returns what the four-rule
scanner of the specification returns when started from the state "previous was not a
bundle flag". -/
theorem modificationRequired_refines_spec (isBundleFlag : String → Bool)
    (args : List String) :
    modificationRequired isBundleFlag args = RequiresModification isBundleFlag args :=
  loop_eq_specScan isBundleFlag args false

/-- C16: a bundle flag as the final token, with no value after it, does not change the
result, and alone it gives false. -/
theorem modificationRequired_trailing_bundle_flag (isBundleFlag : String → Bool)
    (b : String) (args : List String) (hb : isBundleFlag b = true) :
    modificationRequired isBundleFlag (args ++ [b]) = modificationRequired isBundleFlag args ∧
      modificationRequired isBundleFlag [b] = false := by
  refine ⟨loop_append_bundle_flag isBundleFlag b hb args false, ?_⟩
  simp [modificationRequired, modificationRequiredLoop, hb]

/-- C16, at `create container1 --bundle` and at `start -b`. -/
theorem modificationRequired_trailing_bundle_flag_witness :
    (modificationRequired isBundleFlagSpec ["create", "container1", "--bundle"] =
        modificationRequired isBundleFlagSpec ["create", "container1"] ∧
      modificationRequired isBundleFlagSpec ["--bundle"] = false) ∧
    modificationRequired isBundleFlagSpec (["start"] ++ ["-b"]) =
      modificationRequired isBundleFlagSpec ["start"] :=
  ⟨modificationRequired_trailing_bundle_flag isBundleFlagSpec "--bundle"
      ["create", "container1"] (by decide),
    (modificationRequired_trailing_bundle_flag isBundleFlagSpec "-b" ["start"]
      (by decide)).1⟩

/-- C17: with `isBundleFlag` false on `create`, `modificationRequired args` is true if
and only if some `create` token has in front of it a maximal run of consecutive bundle
flags of even length (zero included).  So for a bundle flag `b` two flags before
`create` give true, one or three give false. -/
theorem modificationRequired_closed_form (isBundleFlag : String → Bool)
    (hcreate : isBundleFlag "create" = false) (args : List String) :
    (modificationRequired isBundleFlag args = true ↔
      ∃ i, args[i]? = some "create" ∧ bundleRunBefore isBundleFlag args i % 2 = 0) ∧
    (∀ b, isBundleFlag b = true →
      modificationRequired isBundleFlag [b, b, "create"] = true ∧
      modificationRequired isBundleFlag [b, "create"] = false ∧
      modificationRequired isBundleFlag [b, b, b, "create"] = false) := by
  refine ⟨⟨?_, ?_⟩, ?_⟩
  · intro h
    obtain ⟨i, hi, hev⟩ := loop_true_even isBundleFlag args [] false (by simp) h
    exact ⟨i, hi, by simpa [bundleRunBefore] using hev⟩
  · rintro ⟨i, hi, hev⟩
    exact loop_even_true isBundleFlag hcreate args [] false i (by simp) hi
      (by simpa [bundleRunBefore] using hev)
  · intro b hb
    simp [modificationRequired, modificationRequiredLoop, hb, hcreate]

/-- C17, at `--bundle --bundle create`: the `create` at position 2 follows a run of two
flags. -/
theorem modificationRequired_closed_form_witness :
    modificationRequired isBundleFlagSpec ["--bundle", "--bundle", "create"] = true ∧
      bundleRunBefore isBundleFlagSpec ["--bundle", "--bundle", "create"] 2 = 2 :=
  ⟨(modificationRequired_closed_form isBundleFlagSpec (by decide)
      ["--bundle", "--bundle", "create"]).1.mpr ⟨2, rfl, by decide⟩, by decide⟩

end Cfcr
